import Mathlib

/-!
Verification development for the llms-txt-generator repository.

The definitions below are shallow embeddings of the repository's source:

* `apps/web/utils/redis/scheduler.ts` — the Redis-backed scheduler
  (`scheduleJob`, `getReadyJobs`, `processScheduledJobs`,
  `cancelScheduledJob`).  Redis state is modelled explicitly: the
  `scheduled:jobs` sorted set is a list of (member, score) pairs kept in
  score order, the `generate:queue` list is a Lean list, and the
  `job:{id}` metadata hashes are modelled by their `status` field as a
  function from job id to an optional status string.
* `apps/web/app/api/projects/[id]/route.ts` — `getCronAndNextRun` and the
  `POST /api/projects` handler.  JavaScript `Date` arithmetic is modelled
  over natural numbers counting milliseconds of local time since
  1970-01-01T00:00 local (1970-01-01 was a Thursday), ignoring DST.
* `apps/web/app/api/projects/[id]/runs/route.ts` — the llms.txt download
  endpoint.
* the Cloud Tasks dispatcher (`utils/cloud-tasks/scheduler.ts`) —
  `enqueueImmediateJob` / `scheduleJob` task construction.
* `infra/schemas.sql` and the web app's `RunStatus` type.
* `app/api/scheduler/jobs/route.ts` — the scheduled-jobs view endpoint.
-/

namespace LlmsTxt

/-! ### Redis scheduler model (apps/web/utils/redis/scheduler.ts) -/

/-- The `ScheduledJob` interface of `utils/redis/scheduler.ts`.  The
sorted-set member is the JSON serialization of this record; since the
serialization is injective we identify members with the records
themselves.  `scheduledAt` is a Unix timestamp in epoch milliseconds. -/
structure ScheduledJob where
  id : String
  projectId : String
  runId : Option String := none
  url : String
  scheduledAt : Nat
deriving DecidableEq, Repr

/-- Redis state touched by the scheduler module: the `scheduled:jobs`
sorted set (member/score pairs, in score order), the `generate:queue`
list, and the `status` field of each `job:{id}` hash (`none` when the
hash does not exist). -/
structure RedisState where
  scheduled : List (ScheduledJob × Nat)
  queue : List ScheduledJob
  jobStatus : String → Option String

/-- Functional update of the job-status table (one `hset`/`del`). -/
def setStatus (f : String → Option String) (k : String) (v : Option String) :
    String → Option String :=
  fun x => if x = k then v else f x

/-- Insert a member with its score into a score-ordered list (the
position a Redis sorted set gives a fresh member). -/
def insertByScore (score : Nat) (j : ScheduledJob) :
    List (ScheduledJob × Nat) → List (ScheduledJob × Nat)
  | [] => [(j, score)]
  | e :: rest =>
    if score < e.2 then (j, score) :: e :: rest
    else e :: insertByScore score j rest

/-- Redis `ZADD key score member`: a member occurs at most once, so any
existing occurrence is dropped and the member is (re)inserted at the
position of its new score. -/
def zadd (l : List (ScheduledJob × Nat)) (score : Nat) (j : ScheduledJob) :
    List (ScheduledJob × Nat) :=
  insertByScore score j (l.filter (fun e => e.1 ≠ j))

/-- Redis `ZRANGEBYSCORE key lo hi`: the members whose score lies in
`[lo, hi]`, in score order. -/
def zrangebyscore (l : List (ScheduledJob × Nat)) (lo hi : Nat) :
    List ScheduledJob :=
  (l.filter (fun e => lo ≤ e.2 ∧ e.2 ≤ hi)).map Prod.fst

/-- Redis `ZREMRANGEBYSCORE key lo hi`: remove the members whose score
lies in `[lo, hi]`. -/
def zremrangebyscore (l : List (ScheduledJob × Nat)) (lo hi : Nat) :
    List (ScheduledJob × Nat) :=
  l.filter (fun e => ¬ (lo ≤ e.2 ∧ e.2 ≤ hi))

/-- `scheduleJob` of `utils/redis/scheduler.ts`: write the `job:{id}`
hash with status `scheduled`, then `ZADD` the serialized job with its
`scheduledAt` as score. -/
def scheduleJob (s : RedisState) (job : ScheduledJob) : RedisState :=
  { s with
    jobStatus := setStatus s.jobStatus job.id (some "scheduled")
    scheduled := zadd s.scheduled job.scheduledAt job }

/-- `getReadyJobs` of `utils/redis/scheduler.ts`: `ZRANGEBYSCORE 0 now`,
early-return on empty, otherwise `ZREMRANGEBYSCORE 0 now`, and return
the parsed members.  The two Redis commands are issued separately (this
is where the promotion race lives); this definition is their sequential
composition. -/
def getReadyJobs (s : RedisState) (now : Nat) :
    List ScheduledJob × RedisState :=
  let readyJobs := zrangebyscore s.scheduled 0 now
  if readyJobs.isEmpty then ([], s)
  else (readyJobs, { s with scheduled := zremrangebyscore s.scheduled 0 now })

/-- The body of the `for` loop of `processScheduledJobs`: `HSET
job:{id} status queued`, then `RPUSH generate:queue`. -/
def promoteJob (st : RedisState) (job : ScheduledJob) : RedisState :=
  { st with
    jobStatus := setStatus st.jobStatus job.id (some "queued")
    queue := st.queue ++ [job] }

/-- `processScheduledJobs` of `utils/redis/scheduler.ts`: promote every
ready job and return how many were promoted. -/
def processScheduledJobs (s : RedisState) (now : Nat) : Nat × RedisState :=
  let r := getReadyJobs s now
  (r.1.length, r.1.foldl promoteJob r.2)

/-- `cancelScheduledJob` of `utils/redis/scheduler.ts`: scan the whole
sorted set (`ZRANGE 0 -1`), and for the first member whose parsed `id`
matches, `ZREM` that member, `DEL job:{jobId}` and return `true`;
otherwise return `false`. -/
def cancelScheduledJob (s : RedisState) (jobId : String) :
    Bool × RedisState :=
  match s.scheduled.find? (fun e => e.1.id = jobId) with
  | some e =>
    (true,
      { s with
        scheduled := s.scheduled.filter (fun x => x.1 ≠ e.1)
        jobStatus := setStatus s.jobStatus jobId none })
  | none => (false, s)

/-! ### Helper lemmas about the scheduler -/

/-- In a sorted set of epoch-millisecond scores the range `[0, now]` is
exactly the due entries. -/
theorem zrangebyscore_zero (l : List (ScheduledJob × Nat)) (now : Nat) :
    zrangebyscore l 0 now = (l.filter (fun e => e.2 ≤ now)).map Prod.fst := by
  unfold zrangebyscore
  congr 1
  apply List.filter_congr
  intro x _
  simp

theorem zremrangebyscore_zero (l : List (ScheduledJob × Nat)) (now : Nat) :
    zremrangebyscore l 0 now = l.filter (fun e => ¬ e.2 ≤ now) := by
  unfold zremrangebyscore
  apply List.filter_congr
  intro x _
  simp

theorem getReadyJobs_fst (s : RedisState) (now : Nat) :
    (getReadyJobs s now).1 = (s.scheduled.filter (fun e => e.2 ≤ now)).map Prod.fst := by
  unfold getReadyJobs
  by_cases h : (zrangebyscore s.scheduled 0 now).isEmpty
  · simp only [h, if_true]
    rw [← zrangebyscore_zero]
    exact (List.isEmpty_iff.mp h).symm
  · simp only [h, if_false]
    exact zrangebyscore_zero s.scheduled now

/-- When no entry is due, removing the due entries changes nothing. -/
theorem filter_not_due_of_filter_due_nil (l : List (ScheduledJob × Nat))
    (now : Nat) (h : l.filter (fun e => e.2 ≤ now) = []) :
    l.filter (fun e => ¬ e.2 ≤ now) = l := by
  induction l with
  | nil => rfl
  | cons e rest ih =>
    by_cases he : e.2 ≤ now
    · simp [he] at h
    · simp only [List.filter_cons] at h ⊢
      rw [if_neg (by simpa using he)] at h
      rw [if_pos (by simpa using he), ih h]

theorem getReadyJobs_scheduled (s : RedisState) (now : Nat) :
    (getReadyJobs s now).2.scheduled = s.scheduled.filter (fun e => ¬ e.2 ≤ now) := by
  unfold getReadyJobs
  by_cases h : (zrangebyscore s.scheduled 0 now).isEmpty
  · simp only [h, if_true]
    rw [zrangebyscore_zero, List.isEmpty_iff] at h
    have hf : s.scheduled.filter (fun e => e.2 ≤ now) = [] := by
      cases hc : s.scheduled.filter (fun e => decide (e.2 ≤ now)) with
      | nil => rfl
      | cons a t => rw [hc] at h; simp at h
    exact (filter_not_due_of_filter_due_nil s.scheduled now hf).symm
  · simp only [h, if_false]
    exact zremrangebyscore_zero s.scheduled now

theorem getReadyJobs_queue (s : RedisState) (now : Nat) :
    (getReadyJobs s now).2.queue = s.queue := by
  unfold getReadyJobs
  by_cases h : (zrangebyscore s.scheduled 0 now).isEmpty <;> simp [h]

theorem getReadyJobs_status (s : RedisState) (now : Nat) :
    (getReadyJobs s now).2.jobStatus = s.jobStatus := by
  unfold getReadyJobs
  by_cases h : (zrangebyscore s.scheduled 0 now).isEmpty <;> simp [h]

theorem foldl_promoteJob_queue (l : List ScheduledJob) (st : RedisState) :
    (l.foldl promoteJob st).queue = st.queue ++ l := by
  induction l generalizing st with
  | nil => simp
  | cons j rest ih =>
    simp only [List.foldl_cons, ih, promoteJob]
    simp

theorem foldl_promoteJob_scheduled (l : List ScheduledJob) (st : RedisState) :
    (l.foldl promoteJob st).scheduled = st.scheduled := by
  induction l generalizing st with
  | nil => rfl
  | cons j rest ih => simp only [List.foldl_cons, ih, promoteJob]

theorem foldl_promoteJob_status (l : List ScheduledJob) (st : RedisState)
    (k : String) :
    (l.foldl promoteJob st).jobStatus k =
      if l.any (fun j => j.id = k) then some "queued" else st.jobStatus k := by
  induction l generalizing st with
  | nil => simp
  | cons j rest ih =>
    simp only [List.foldl_cons, ih, List.any_cons]
    by_cases hrest : rest.any (fun j => j.id = k)
    · simp [hrest]
    · by_cases hj : j.id = k
      · simp [promoteJob, setStatus, hrest, hj]
      · have hkj : ¬ k = j.id := fun hc => hj hc.symm
        simp [promoteJob, setStatus, hrest, hj, hkj]

theorem processScheduledJobs_queue (s : RedisState) (now : Nat) :
    (processScheduledJobs s now).2.queue =
      s.queue ++ (s.scheduled.filter (fun e => e.2 ≤ now)).map Prod.fst := by
  simp only [processScheduledJobs]
  rw [foldl_promoteJob_queue, getReadyJobs_queue, getReadyJobs_fst]

theorem processScheduledJobs_scheduled (s : RedisState) (now : Nat) :
    (processScheduledJobs s now).2.scheduled =
      s.scheduled.filter (fun e => ¬ e.2 ≤ now) := by
  simp only [processScheduledJobs]
  rw [foldl_promoteJob_scheduled, getReadyJobs_scheduled]

theorem processScheduledJobs_count (s : RedisState) (now : Nat) :
    (processScheduledJobs s now).1 =
      ((s.scheduled.filter (fun e => e.2 ≤ now)).map Prod.fst).length := by
  simp only [processScheduledJobs]
  rw [getReadyJobs_fst]

theorem processScheduledJobs_status (s : RedisState) (now : Nat) (k : String) :
    (processScheduledJobs s now).2.jobStatus k =
      if ((s.scheduled.filter (fun e => e.2 ≤ now)).map Prod.fst).any
          (fun j => j.id = k)
      then some "queued" else s.jobStatus k := by
  simp only [processScheduledJobs]
  rw [foldl_promoteJob_status, getReadyJobs_status, getReadyJobs_fst]

/-- Keys of a sorted set are `fst`-injective when the key list has no
duplicate. -/
theorem score_unique_of_nodup_keys (l : List (ScheduledJob × Nat))
    (hnd : (l.map Prod.fst).Nodup) {j : ScheduledJob} {t t' : Nat}
    (h1 : (j, t) ∈ l) (h2 : (j, t') ∈ l) : t = t' := by
  have := List.inj_on_of_nodup_map hnd h1 h2 rfl
  exact congrArg Prod.snd this

/-! ### Claim C2 -/

/-- C2: for every state of the scheduled sorted set and every current
time `now`, `getReadyJobs` returns exactly the entries whose score
(`dueAt`) is at most `now` — including entries already overdue — and
removes exactly those entries from the sorted set; `processScheduledJobs`
then sets each returned job's `job:{id}` hash status to `queued`, pushes
the job onto the immediate queue, and returns the number of promoted
jobs. -/
theorem promotion_moves_exactly_due_jobs (s : RedisState) (now : Nat) :
    (getReadyJobs s now).1 =
      (s.scheduled.filter (fun e => e.2 ≤ now)).map Prod.fst ∧
    (getReadyJobs s now).2.scheduled =
      s.scheduled.filter (fun e => ¬ e.2 ≤ now) ∧
    (processScheduledJobs s now).1 =
      ((s.scheduled.filter (fun e => e.2 ≤ now)).map Prod.fst).length ∧
    (processScheduledJobs s now).2.queue =
      s.queue ++ (s.scheduled.filter (fun e => e.2 ≤ now)).map Prod.fst ∧
    ∀ j, j ∈ (s.scheduled.filter (fun e => e.2 ≤ now)).map Prod.fst →
      (processScheduledJobs s now).2.jobStatus j.id = some "queued" := by
  refine ⟨getReadyJobs_fst s now, getReadyJobs_scheduled s now,
    processScheduledJobs_count s now, processScheduledJobs_queue s now, ?_⟩
  intro j hj
  rw [processScheduledJobs_status, if_pos]
  rw [List.any_eq_true]
  exact ⟨j, hj, by simp⟩

/-- Witness for C2 at a concrete state: one due and one future entry. -/
theorem promotion_moves_exactly_due_jobs_witness :
    (processScheduledJobs
        { scheduled := [({ id := "w2", projectId := "p", url := "u",
                           scheduledAt := 4 }, 4),
                        ({ id := "w3", projectId := "p", url := "u",
                           scheduledAt := 99 }, 99)]
          queue := []
          jobStatus := fun _ => none } 10).2.jobStatus "w2" = some "queued" :=
  (promotion_moves_exactly_due_jobs _ 10).2.2.2.2
    { id := "w2", projectId := "p", url := "u", scheduledAt := 4 } (by decide)

/-! ### Claim C1 -/

/-- A due entry sitting in the scheduled set, about to be promoted. -/
def jobA : ScheduledJob :=
  { id := "job-a", projectId := "proj-1", url := "https://a.example.com",
    scheduledAt := 5 }

/-- A second due entry, scheduled concurrently with a promotion tick. -/
def jobB : ScheduledJob :=
  { id := "job-b", projectId := "proj-1", url := "https://b.example.com",
    scheduledAt := 7 }

def raceStart : RedisState :=
  { scheduled := [(jobA, 5)], queue := [], jobStatus := fun _ => none }

/-- One concrete interleaving of the promotion code with a concurrent
`scheduleJob`.  `getReadyJobs` issues `ZRANGEBYSCORE` and
`ZREMRANGEBYSCORE` as two separate Redis commands; here `scheduleJob`
for `jobB` (due at 7, with `now = 10`) lands between the two, so the
removal covers an entry the read never saw. -/
def raceResult : RedisState :=
  let ready := zrangebyscore raceStart.scheduled 0 10
  let s1 := scheduleJob raceStart jobB
  let s2 := { s1 with scheduled := zremrangebyscore s1.scheduled 0 10 }
  ready.foldl promoteJob s2

/-- C1 counterexample: after the interleaving above, `jobB` — whose
`dueAt` (7) has passed (`now = 10`) — is in neither the scheduled sorted
set nor the immediate queue: the promotion dropped it.  The claim's
"after any interleaving of promotion steps (including concurrent
scheduleJob calls …), every entry whose dueAt has passed ends up in
exactly one of the two structures" is therefore false. -/
theorem promotion_race_drops_due_entry :
    jobB.scheduledAt ≤ 10 ∧
    raceResult.scheduled = [] ∧
    raceResult.queue = [jobA] ∧
    jobB ≠ jobA := by
  refine ⟨by decide, by decide, by decide, by decide⟩

/-- C1 amended: when a promotion tick runs without interruption (no
concurrent `scheduleJob` between its Redis commands and no crash), every
due entry ends up exactly once in the immediate queue and is no longer
in the scheduled sorted set. -/
theorem promotion_sequential_no_loss (s : RedisState) (now : Nat)
    (j : ScheduledJob) (t : Nat)
    (hmem : (j, t) ∈ s.scheduled) (hdue : t ≤ now)
    (hq : j ∉ s.queue) (hnd : (s.scheduled.map Prod.fst).Nodup) :
    (processScheduledJobs s now).2.queue.count j = 1 ∧
    (∀ t', (j, t') ∉ (processScheduledJobs s now).2.scheduled) ∧
    (processScheduledJobs s now).2.jobStatus j.id = some "queued" := by
  have hready : j ∈ (s.scheduled.filter (fun e => e.2 ≤ now)).map Prod.fst := by
    rw [List.mem_map]
    exact ⟨(j, t), List.mem_filter.mpr ⟨hmem, by simpa using hdue⟩, rfl⟩
  refine ⟨?_, ?_, ?_⟩
  · rw [processScheduledJobs_queue, List.count_append]
    have h0 : s.queue.count j = 0 := List.count_eq_zero.mpr hq
    have hnd' : ((s.scheduled.filter (fun e => e.2 ≤ now)).map Prod.fst).Nodup := by
      refine List.Nodup.sublist ?_ hnd
      exact List.Sublist.map Prod.fst (List.filter_sublist s.scheduled)
    rw [h0, List.count_eq_one_of_mem hnd' hready]
  · intro t' ht'
    rw [processScheduledJobs_scheduled] at ht'
    have hmem' := List.mem_filter.mp ht'
    have : t = t' := score_unique_of_nodup_keys s.scheduled hnd hmem hmem'.1
    have hnot : ¬ t' ≤ now := by simpa using hmem'.2
    exact hnot (this ▸ hdue)
  · rw [processScheduledJobs_status, if_pos]
    rw [List.any_eq_true]
    exact ⟨j, hready, by simp⟩

/-- A third entry, used in the sequential-promotion witness. -/
def jobC : ScheduledJob :=
  { id := "job-c", projectId := "proj-2", url := "https://c.example.com",
    scheduledAt := 3 }

def seqStart : RedisState :=
  { scheduled := [(jobC, 3)], queue := [], jobStatus := fun _ => none }

/-- Witness for the amended C1 theorem at a concrete state. -/
theorem promotion_sequential_no_loss_witness :
    (processScheduledJobs seqStart 10).2.queue.count jobC = 1 ∧
    (∀ t', (jobC, t') ∉ (processScheduledJobs seqStart 10).2.scheduled) ∧
    (processScheduledJobs seqStart 10).2.jobStatus jobC.id = some "queued" :=
  promotion_sequential_no_loss seqStart 10 jobC 3 (by decide) (by decide)
    (by decide) (by decide)

/-! ### Claim C9 -/

/-- C9: `cancelScheduledJob jobId` returns `true` iff some entry of the
scheduled sorted set deserializes to a job whose `id` is `jobId`; in
that case it removes exactly that member from the sorted set and deletes
the `job:{jobId}` hash, and in the `false` case it leaves the Redis
state unchanged; the immediate queue is never touched. -/
theorem cancelScheduledJob_correct (s : RedisState) (jobId : String) :
    ((cancelScheduledJob s jobId).1 = true ↔
      ∃ e ∈ s.scheduled, e.1.id = jobId) ∧
    (cancelScheduledJob s jobId).2.queue = s.queue ∧
    ((cancelScheduledJob s jobId).1 = false →
      (cancelScheduledJob s jobId).2 = s) ∧
    ((cancelScheduledJob s jobId).1 = true →
      ∃ e ∈ s.scheduled, e.1.id = jobId ∧
        (cancelScheduledJob s jobId).2.scheduled =
          s.scheduled.filter (fun x => x.1 ≠ e.1) ∧
        (cancelScheduledJob s jobId).2.jobStatus jobId = none) := by
  cases hfind : s.scheduled.find? (fun e => e.1.id = jobId) with
  | none =>
    have hnone := List.find?_eq_none.mp hfind
    refine ⟨?_, ?_, ?_, ?_⟩
    · simp only [cancelScheduledJob, hfind]
      constructor
      · intro h; exact absurd h (by simp)
      · rintro ⟨e, he, hid⟩
        exact absurd (by simpa using hid) (by simpa using hnone e he)
    · simp [cancelScheduledJob, hfind]
    · intro _; simp [cancelScheduledJob, hfind]
    · intro h; simp [cancelScheduledJob, hfind] at h
  | some e =>
    have hmem := List.mem_of_find?_eq_some hfind
    have hid : e.1.id = jobId := by
      have := List.find?_some hfind
      simpa using this
    refine ⟨?_, ?_, ?_, ?_⟩
    · have hres : (cancelScheduledJob s jobId).1 = true := by
        simp [cancelScheduledJob, hfind]
      exact ⟨fun _ => ⟨e, hmem, hid⟩, fun _ => hres⟩
    · simp [cancelScheduledJob, hfind]
    · intro h; simp [cancelScheduledJob, hfind] at h
    · intro _
      refine ⟨e, hmem, hid, ?_, ?_⟩
      · simp [cancelScheduledJob, hfind]
      · simp [cancelScheduledJob, hfind, setStatus]

/-- Witness for C9: cancelling the one scheduled job succeeds, and
cancelling an unknown id changes nothing. -/
theorem cancelScheduledJob_correct_witness :
    ((cancelScheduledJob seqStart "job-c").1 = true ↔
      ∃ e ∈ seqStart.scheduled, e.1.id = "job-c") ∧
    ((cancelScheduledJob seqStart "no-such-id").1 = false →
      (cancelScheduledJob seqStart "no-such-id").2 = seqStart) :=
  ⟨(cancelScheduledJob_correct seqStart "job-c").1,
   (cancelScheduledJob_correct seqStart "no-such-id").2.2.1⟩

/-! ### getCronAndNextRun (apps/web/app/api/projects/[id]/route.ts)

JavaScript `Date` arithmetic is modelled over `Nat` milliseconds of
local time since 1970-01-01T00:00 local; 1970-01-01 was a Thursday
(`getDay = 4`).  DST shifts are not modelled. -/

def msPerHour : Nat := 3600000

def msPerDay : Nat := 86400000

/-- `d.setHours(0,0,0,0)`: start of the local day containing `t`. -/
def dayStart (t : Nat) : Nat := t / msPerDay * msPerDay

/-- JavaScript `Date.getDay` (0 = Sunday … 6 = Saturday). -/
def getDay (t : Nat) : Nat := (t / msPerDay + 4) % 7

/-- `d.setHours(2, 0, 0, 0)`: 02:00:00.000 of the local day of `t`. -/
def setHours2am (t : Nat) : Nat := dayStart t + 2 * msPerHour

/-- The `case 'daily'` body of `getCronAndNextRun`: today 02:00, bumped
by one day when that is not in the future. -/
def dailyNextRun (now : Nat) : Nat :=
  let daily := setHours2am now
  if daily ≤ now then daily + msPerDay else daily

/-- The `case 'weekly'` body of `getCronAndNextRun`: this day's 02:00
plus `(7 - getDay) % 7` days, or a full week when that is zero. -/
def weeklyNextRun (now : Nat) : Nat :=
  let weekly := setHours2am now
  let daysUntilSunday := (7 - getDay now) % 7
  weekly + (if daysUntilSunday = 0 then 7 else daysUntilSunday) * msPerDay

/-- `getCronAndNextRun` of `app/api/projects/[id]/route.ts`.  The
`next_run_at` ISO string is represented by the underlying timestamp;
`'custom'` and the `default` branch both return `(null, null)` and are
merged. -/
def getCronAndNextRun (now : Nat) (schedule : String) :
    Option String × Option Nat :=
  if schedule = "daily" then (some "0 2 * * *", some (dailyNextRun now))
  else if schedule = "weekly" then (some "0 2 * * 0", some (weeklyNextRun now))
  else (none, none)

/-- An instant of the form "Sunday 02:00:00.000 local". -/
def isSunday2am (t : Nat) : Bool :=
  decide (getDay t = 0) && decide (t % msPerDay = 2 * msPerHour)

/-! ### Claim C3 -/

/-- C3 counterexample: `getCronAndNextRun` does not accept arbitrary
valid cron expressions — feeding it the very 5-field cron expression it
produces for the daily preset (or the product's `'custom'` schedule
value) yields null for both fields, while only the literal strings
`'daily'` and `'weekly'` give a non-null result. -/
theorem getCronAndNextRun_rejects_cron_expressions :
    getCronAndNextRun 0 "0 2 * * *" = (none, none) ∧
    getCronAndNextRun 0 "0 2 * * 0" = (none, none) ∧
    getCronAndNextRun 0 "custom" = (none, none) ∧
    (getCronAndNextRun 0 "daily").1 = some "0 2 * * *" := by
  refine ⟨by decide, by decide, by decide, by decide⟩

/-- C3 amended: `getCronAndNextRun` returns a non-null cron expression
and next-run timestamp exactly for the schedule strings `'daily'` and
`'weekly'`; every other input — including valid cron expressions and
`'custom'` — yields null for both fields. -/
theorem getCronAndNextRun_presets_only (now : Nat) (schedule : String) :
    ((getCronAndNextRun now schedule).1.isSome = true ↔
      schedule = "daily" ∨ schedule = "weekly") ∧
    ((getCronAndNextRun now schedule).2.isSome = true ↔
      schedule = "daily" ∨ schedule = "weekly") ∧
    (schedule ≠ "daily" → schedule ≠ "weekly" →
      getCronAndNextRun now schedule = (none, none)) := by
  by_cases h1 : schedule = "daily"
  · simp [getCronAndNextRun, h1]
  · by_cases h2 : schedule = "weekly" <;>
      simp [getCronAndNextRun, h1, h2]

/-- Witness for the amended C3 theorem at concrete schedule strings. -/
theorem getCronAndNextRun_presets_only_witness :
    ((getCronAndNextRun 0 "daily").1.isSome = true ↔
      "daily" = "daily" ∨ "daily" = "weekly") ∧
    ((getCronAndNextRun 0 "hourly").2.isSome = true ↔
      "hourly" = "daily" ∨ "hourly" = "weekly") :=
  ⟨(getCronAndNextRun_presets_only 0 "daily").1,
   (getCronAndNextRun_presets_only 0 "hourly").2.1⟩

/-! ### Claim C7 -/

/-- C7 counterexample: at a Sunday 01:00 local (1970-01-04T01:00, i.e.
262800000 ms), the earliest Sunday 02:00 strictly after now is the same
day's 02:00 (266400000), but the weekly branch returns the following
Sunday's 02:00 (871200000) because `daysUntilSunday` is 0 on a Sunday
and the code then adds a full week. -/
theorem weeklyNextRun_sunday_before_2am_counterexample :
    getDay 262800000 = 0 ∧
    262800000 % msPerDay = msPerHour ∧
    isSunday2am 266400000 = true ∧
    262800000 < 266400000 ∧
    (getCronAndNextRun 262800000 "weekly").2 = some 871200000 ∧
    266400000 < 871200000 := by
  refine ⟨by decide, by decide, by decide, by decide, by decide, by decide⟩

/-- C7 amended: for `'daily'` the result is the earliest 02:00 strictly
after now; for `'weekly'` the result is a Sunday-02:00 instant strictly
after now, and it is the earliest such instant except when now is a
Sunday before 02:00, in which case the code skips the same-day 02:00 and
returns the following Sunday's; every other schedule string yields null
for both fields. -/
theorem getCronAndNextRun_next_due_correct (now : Nat) (schedule : String) :
    (getCronAndNextRun now "daily" =
        (some "0 2 * * *", some (dailyNextRun now)) ∧
      now < dailyNextRun now ∧
      dailyNextRun now % msPerDay = 2 * msPerHour ∧
      (∀ t, now < t → t % msPerDay = 2 * msPerHour → dailyNextRun now ≤ t)) ∧
    (getCronAndNextRun now "weekly" =
        (some "0 2 * * 0", some (weeklyNextRun now)) ∧
      now < weeklyNextRun now ∧
      isSunday2am (weeklyNextRun now) = true ∧
      (¬ (getDay now = 0 ∧ now % msPerDay < 2 * msPerHour) →
        ∀ t, now < t → isSunday2am t = true → weeklyNextRun now ≤ t) ∧
      (getDay now = 0 ∧ now % msPerDay < 2 * msPerHour →
        isSunday2am (setHours2am now) = true ∧ now < setHours2am now ∧
        weeklyNextRun now = setHours2am now + 7 * msPerDay)) ∧
    (schedule ≠ "daily" → schedule ≠ "weekly" →
      getCronAndNextRun now schedule = (none, none)) := by
  refine ⟨⟨by simp [getCronAndNextRun], ?_, ?_, ?_⟩,
    ⟨by simp [getCronAndNextRun], ?_, ?_, ?_, ?_⟩, ?_⟩
  · simp only [dailyNextRun, setHours2am, dayStart, msPerDay, msPerHour]
    split <;> omega
  · simp only [dailyNextRun, setHours2am, dayStart, msPerDay, msPerHour]
    split <;> omega
  · intro t h1 h2
    simp only [msPerDay, msPerHour] at h2
    simp only [dailyNextRun, setHours2am, dayStart, msPerDay, msPerHour]
    split <;> omega
  · simp only [weeklyNextRun, setHours2am, dayStart, getDay, msPerDay,
      msPerHour]
    split <;> omega
  · simp only [isSunday2am, Bool.and_eq_true, decide_eq_true_eq,
      weeklyNextRun, setHours2am, dayStart, getDay, msPerDay, msPerHour]
    constructor
    · split <;> omega
    · split <;> omega
  · intro hno t ht hsun
    simp only [isSunday2am, Bool.and_eq_true, decide_eq_true_eq, getDay,
      msPerDay, msPerHour] at hsun
    simp only [getDay, msPerDay, msPerHour] at hno
    push_neg at hno
    simp only [weeklyNextRun, setHours2am, dayStart, getDay, msPerDay,
      msPerHour]
    split <;> omega
  · intro hsun
    simp only [getDay, msPerDay, msPerHour] at hsun
    refine ⟨?_, ?_, ?_⟩
    · simp only [isSunday2am, Bool.and_eq_true, decide_eq_true_eq,
        setHours2am, dayStart, getDay, msPerDay, msPerHour]
      omega
    · simp only [setHours2am, dayStart, msPerDay, msPerHour]
      omega
    · simp only [weeklyNextRun, setHours2am, dayStart, getDay, msPerDay,
        msPerHour]
      split <;> omega
  · intro h1 h2
    simp [getCronAndNextRun, h1, h2]

/-- Witness for the amended C7 theorem: evaluate the daily and weekly
computation at a Monday 03:00 local (1970-01-05T03:00). -/
theorem getCronAndNextRun_next_due_correct_witness :
    (getCronAndNextRun 356400000 "daily").2 = some 439200000 ∧
    (getCronAndNextRun 356400000 "weekly").2 = some 871200000 ∧
    getCronAndNextRun 356400000 "monthly" = (none, none) := by
  refine ⟨by decide, by decide,
    (getCronAndNextRun_next_due_correct 356400000 "monthly").2.2
      (by decide) (by decide)⟩

/-! ### Claim C4 — run status domains -/

/-- The `job_status` Postgres enum of `infra/schemas.sql` (the declared
domain of `runs.status`). -/
def jobStatusEnumValues : List String :=
  ["QUEUED", "IN_PROGRESS", "RETRYING", "FAILED", "COMPLETE"]

/-- The web application's `RunStatus` TypeScript union — the six-value
run state machine of the spec, also used by the runs endpoints and the
dashboard. -/
def runStatusValues : List String :=
  ["QUEUED", "IN_PROGRESS", "RETRYING", "FAILED", "COMPLETE_NO_DIFFS",
   "COMPLETE_WITH_DIFFS"]

/-- C4: the database's `job_status` enum does not coincide with the
six-value run state machine: the app's two terminal success statuses
`COMPLETE_NO_DIFFS`/`COMPLETE_WITH_DIFFS` (which the runs endpoint
checks and the dashboard renders) are absent from the enum, which
instead carries a lone `COMPLETE` value the application never writes. -/
theorem job_status_domain_mismatch :
    "COMPLETE_WITH_DIFFS" ∈ runStatusValues ∧
    "COMPLETE_NO_DIFFS" ∈ runStatusValues ∧
    "COMPLETE_WITH_DIFFS" ∉ jobStatusEnumValues ∧
    "COMPLETE_NO_DIFFS" ∉ jobStatusEnumValues ∧
    "COMPLETE" ∈ jobStatusEnumValues ∧
    "COMPLETE" ∉ runStatusValues := by
  refine ⟨by decide, by decide, by decide, by decide, by decide, by decide⟩

/-! ### Claim C6 — scheduled-at units -/

/-- The `GET /api/scheduler/jobs` endpoint reads the sorted set
`WITHSCORES` and reports, per entry, `scheduled_at = new
Date(parseFloat(score) * 1000).toISOString()`; the reported instant is
therefore `score * 1000` in epoch milliseconds. -/
def schedulerJobsView (scheduled : List (ScheduledJob × Nat)) :
    List (ScheduledJob × Nat) :=
  scheduled.map (fun e => (e.1, e.2 * 1000))

def emptyRedis : RedisState :=
  { scheduled := [], queue := [], jobStatus := fun _ => none }

/-- A job due at epoch milliseconds 1700000000000
(2023-11-14T22:13:20Z). -/
def jobMs : ScheduledJob :=
  { id := "job-ms", projectId := "proj-3", url := "https://m.example.com",
    scheduledAt := 1700000000000 }

/-- C6: `scheduleJob` stores the score in epoch milliseconds, but the
scheduled-jobs endpoint multiplies the score by 1000 (reading it as
epoch seconds), so the `scheduled_at` it reports for the job denotes an
instant 1000 times later than the one the job was scheduled for. -/
theorem scheduler_jobs_endpoint_unit_mismatch :
    (scheduleJob emptyRedis jobMs).scheduled = [(jobMs, 1700000000000)] ∧
    schedulerJobsView (scheduleJob emptyRedis jobMs).scheduled =
      [(jobMs, 1700000000000000)] ∧
    (1700000000000000 : Nat) ≠ jobMs.scheduledAt := by
  refine ⟨by decide, by decide, by decide⟩

/-! ### Claim C8 — Cloud Tasks dispatch deduplication -/

/-- The `TaskJob` interface of the Cloud Tasks dispatcher
(`utils/cloud-tasks/scheduler.ts`). -/
structure TaskJob where
  id : String
  projectId : String
  runId : Option String := none
  url : String
  priority : Option String := none
  render_mode : Option String := none
  scheduledAt : Option Nat := none
deriving DecidableEq, Repr

def CT_PROJECT_ID : String := "api-project-1042553923996"

def CT_LOCATION : String := "us-west1"

def CT_QUEUE_NAME : String := "llms-txt-gen"

/-- `client.taskPath(project, location, queue, task)`: the fully
qualified Cloud Tasks task name. -/
def taskPath (project location queue task : String) : String :=
  "projects/" ++ project ++ "/locations/" ++ location ++ "/queues/" ++
    queue ++ "/tasks/" ++ task

/-- The task record handed to `client.createTask` (the fields the
claims are about). -/
structure CloudTask where
  name : String
  payload : TaskJob
  scheduleTimeSeconds : Option Nat
deriving DecidableEq, Repr

/-- `enqueueImmediateJob` of the Cloud Tasks dispatcher: builds a task
named `taskPath(..., job.id)` with the job as HTTP body. -/
def enqueueImmediateTask (job : TaskJob) : CloudTask :=
  { name := taskPath CT_PROJECT_ID CT_LOCATION CT_QUEUE_NAME job.id
    payload := job
    scheduleTimeSeconds := none }

/-- `scheduleJob` of the Cloud Tasks dispatcher: throws when
`job.scheduledAt` is falsy (absent, modelled as `none`, or `0`),
otherwise builds the task named `taskPath(..., job.id)` with
`scheduleTime.seconds = floor(scheduledAt / 1000)`. -/
def scheduleJobTask (job : TaskJob) : Option CloudTask :=
  match job.scheduledAt with
  | none => none
  | some t =>
    if t = 0 then none
    else
      some { name := taskPath CT_PROJECT_ID CT_LOCATION CT_QUEUE_NAME job.id
             payload := job
             scheduleTimeSeconds := some (t / 1000) }

theorem scheduleJobTask_name (j : TaskJob) (c : CloudTask)
    (h : scheduleJobTask j = some c) :
    c.name = taskPath CT_PROJECT_ID CT_LOCATION CT_QUEUE_NAME j.id := by
  unfold scheduleJobTask at h
  rcases hA : j.scheduledAt with _ | t <;> rw [hA] at h
  · simp at h
  · by_cases ht : t = 0
    · simp [ht] at h
    · simp only [ht, if_false] at h
      have := Option.some.inj h
      rw [← this]

/-- C8: the dispatch-transport task name computed by both
`enqueueImmediateJob` and `scheduleJob` is `taskPath(project, location,
queue, job.id)` — a function of the job `id` alone — so any two
dispatches of jobs with equal `id` target the same task name regardless
of every other job field. -/
theorem dispatch_dedup_by_job_id (j1 j2 : TaskJob) (h : j1.id = j2.id) :
    (enqueueImmediateTask j1).name =
      taskPath CT_PROJECT_ID CT_LOCATION CT_QUEUE_NAME j1.id ∧
    (enqueueImmediateTask j1).name = (enqueueImmediateTask j2).name ∧
    (∀ c, scheduleJobTask j1 = some c →
      c.name = (enqueueImmediateTask j2).name) ∧
    (∀ c1 c2, scheduleJobTask j1 = some c1 → scheduleJobTask j2 = some c2 →
      c1.name = c2.name) := by
  refine ⟨rfl, by simp [enqueueImmediateTask, h], ?_, ?_⟩
  · intro c hc
    rw [scheduleJobTask_name j1 c hc, h]
    rfl
  · intro c1 c2 h1 h2
    rw [scheduleJobTask_name j1 c1 h1, scheduleJobTask_name j2 c2 h2, h]

/-- An immediate job and a scheduled job sharing the same logical id. -/
def tjob1 : TaskJob :=
  { id := "dup-1", projectId := "pX", url := "https://x1.example.com" }

def tjob2 : TaskJob :=
  { id := "dup-1", projectId := "pY", url := "https://x2.example.com",
    priority := some "HIGH", scheduledAt := some 5000 }

/-- Witness for C8: the two dispatch paths name the same task for two
jobs that agree only on `id`. -/
theorem dispatch_dedup_by_job_id_witness :
    (enqueueImmediateTask tjob1).name = (enqueueImmediateTask tjob2).name :=
  (dispatch_dedup_by_job_id tjob1 tjob2 rfl).2.1

/-! ### Claim C5 — artifact trigger condition and download endpoint -/

/-- The possible responses of `GET
/api/projects/[id]/runs/[runId]/llms.txt`
(`app/api/projects/[id]/runs/route.ts`). -/
inductive LlmsTxtResponse where
  | unauthorized
  | projectNotFound
  | runNotFound
  | runNotComplete
  | artifactFetchFailed
  | noArtifact
  | redirectPublicUrl (u : String)
  | storagePathInfo (p : String)
  | fileContent (c : String)
  | placeholderFile (runStatus : String)
deriving DecidableEq, Repr

/-- The artifact row fields the endpoint consults
(`metadata.public_url`, `storage_path`, `metadata.content`). -/
structure Artifact where
  publicUrl : Option String := none
  storagePath : Option String := none
  content : Option String := none
deriving DecidableEq, Repr

/-- The llms.txt download handler.  `run` is the looked-up run's
`status` (`none` when the run row is missing), `artifactsQueryOk` the
success of the artifacts query, `artifacts` its result (already ordered
newest-first and limited to one by the query, so only the head is
used). -/
def llmsTxtGET (authOk projectFound : Bool) (run : Option String)
    (artifactsQueryOk : Bool) (artifacts : List Artifact) :
    LlmsTxtResponse :=
  if ¬ authOk then .unauthorized
  else if ¬ projectFound then .projectNotFound
  else
    match run with
    | none => .runNotFound
    | some runStatus =>
      if runStatus ≠ "COMPLETE_WITH_DIFFS" ∧ runStatus ≠ "COMPLETE_NO_DIFFS"
      then .runNotComplete
      else if ¬ artifactsQueryOk then .artifactFetchFailed
      else
        match artifacts.head? with
        | none => .noArtifact
        | some a =>
          match a.publicUrl with
          | some u => .redirectPublicUrl u
          | none =>
            match a.storagePath with
            | some p => .storagePathInfo p
            | none =>
              match a.content with
              | some c => .fileContent c
              | none => .placeholderFile runStatus

/-- HTTP status of each response branch of the handler. -/
def httpStatusOf : LlmsTxtResponse → Nat
  | .unauthorized => 401
  | .projectNotFound => 404
  | .runNotFound => 404
  | .runNotComplete => 400
  | .artifactFetchFailed => 500
  | .noArtifact => 404
  | .redirectPublicUrl _ => 307
  | .storagePathInfo _ => 200
  | .fileContent _ => 200
  | .placeholderFile _ => 200

/-- Whether a response hands the caller artifact material (a redirect,
storage pointer, stored content, or the placeholder file body). -/
def servesArtifact : LlmsTxtResponse → Bool
  | .redirectPublicUrl _ => true
  | .storagePathInfo _ => true
  | .fileContent _ => true
  | .placeholderFile _ => true
  | _ => false

/-- Modelled from the spec: the worker service (`apps/worker`), whose
Python sources are not present under `src/` (only its README and test
suite are), finalizes a run and applies the artifact trigger condition
of §6: "artifact regeneration and subscriber notification occur if and
only if a run's terminal status is COMPLETE_WITH_DIFFS".  The result is
the pair (artifact regenerated, webhooks notified). -/
def workerPostRunEffects (terminalStatus : String) : Bool × Bool :=
  if terminalStatus = "COMPLETE_WITH_DIFFS" then (true, true)
  else (false, false)

/-- C5: artifact regeneration and webhook notification happen exactly
for runs ending `COMPLETE_WITH_DIFFS` (and for no `COMPLETE_NO_DIFFS` or
`FAILED` run), and the download endpoint serves artifact material only
when the run's status is one of the two `COMPLETE_*` values, answering
400 for every other status. -/
theorem artifact_and_webhooks_iff_diffs (terminalStatus : String)
    (authOk projectFound artifactsQueryOk : Bool)
    (run : Option String) (artifacts : List Artifact) :
    ((workerPostRunEffects terminalStatus).1 = true ↔
      terminalStatus = "COMPLETE_WITH_DIFFS") ∧
    ((workerPostRunEffects terminalStatus).2 = true ↔
      terminalStatus = "COMPLETE_WITH_DIFFS") ∧
    workerPostRunEffects "COMPLETE_NO_DIFFS" = (false, false) ∧
    workerPostRunEffects "FAILED" = (false, false) ∧
    (∀ st, st ≠ "COMPLETE_WITH_DIFFS" → st ≠ "COMPLETE_NO_DIFFS" →
      llmsTxtGET true true (some st) artifactsQueryOk artifacts =
        .runNotComplete ∧
      httpStatusOf (llmsTxtGET true true (some st) artifactsQueryOk
        artifacts) = 400) ∧
    (servesArtifact (llmsTxtGET authOk projectFound run artifactsQueryOk
        artifacts) = true →
      ∃ st, run = some st ∧
        (st = "COMPLETE_WITH_DIFFS" ∨ st = "COMPLETE_NO_DIFFS")) := by
  refine ⟨?_, ?_, by decide, by decide, ?_, ?_⟩
  · by_cases h : terminalStatus = "COMPLETE_WITH_DIFFS" <;>
      simp [workerPostRunEffects, h]
  · by_cases h : terminalStatus = "COMPLETE_WITH_DIFFS" <;>
      simp [workerPostRunEffects, h]
  · intro st h1 h2
    constructor
    · simp [llmsTxtGET, h1, h2]
    · simp [llmsTxtGET, h1, h2, httpStatusOf]
  · intro hserve
    cases authOk with
    | false => simp [llmsTxtGET, servesArtifact] at hserve
    | true =>
      cases projectFound with
      | false => simp [llmsTxtGET, servesArtifact] at hserve
      | true =>
        cases run with
        | none => simp [llmsTxtGET, servesArtifact] at hserve
        | some st =>
          by_cases hst : st ≠ "COMPLETE_WITH_DIFFS" ∧
              st ≠ "COMPLETE_NO_DIFFS"
          · simp [llmsTxtGET, hst, servesArtifact] at hserve
          · refine ⟨st, rfl, ?_⟩
            by_cases hc : st = "COMPLETE_WITH_DIFFS"
            · exact Or.inl hc
            · refine Or.inr ?_
              by_contra hn
              exact hst ⟨hc, hn⟩

/-- Witness for C5 at a concrete failed run and a concrete served
artifact. -/
theorem artifact_and_webhooks_iff_diffs_witness :
    (llmsTxtGET true true (some "FAILED") true [] = .runNotComplete ∧
      httpStatusOf (llmsTxtGET true true (some "FAILED") true []) = 400) ∧
    (∃ st, (some "COMPLETE_WITH_DIFFS" : Option String) = some st ∧
      (st = "COMPLETE_WITH_DIFFS" ∨ st = "COMPLETE_NO_DIFFS")) :=
  ⟨((artifact_and_webhooks_iff_diffs "FAILED" true true true
      (some "FAILED") []).2.2.2.2.1 "FAILED" (by decide) (by decide)),
   ((artifact_and_webhooks_iff_diffs "FAILED" true true true
      (some "COMPLETE_WITH_DIFFS")
      [{ content := some "Site: example.com" }]).2.2.2.2.2 (by decide))⟩

/-! ### Claim C10 — project creation atomicity -/

/-- The `projects` and `project_configs` rows, by project id. -/
structure ProjectsDb where
  projects : List String
  configs : List String
deriving DecidableEq, Repr

inductive PostProjectsOutcome where
  | unauthorized
  | missingFields
  | invalidUrl
  | projectInsertFailed
  | configInsertFailed
  | created
deriving DecidableEq, Repr

/-- The `POST /api/projects` handler
(`app/api/projects/[id]/route.ts`).  The oracle booleans stand for the
auth check, the name/domain presence check, the `new URL` parse, and
the success of the two inserts; `newId` is the id Postgres generates for
the new project row.  On a `project_configs` insert failure the handler
deletes the just-created project row and answers 500.  The trailing
initial-run block touches neither `projects` nor `project_configs` and
never changes the 201 response, so it is omitted.  The returned triple
is (outcome, HTTP status, resulting rows). -/
def postProjects (authOk hasNameAndDomain urlValid : Bool)
    (projectInsertOk configInsertOk : Bool) (newId : String)
    (db : ProjectsDb) : PostProjectsOutcome × Nat × ProjectsDb :=
  if ¬ authOk then (.unauthorized, 401, db)
  else if ¬ hasNameAndDomain then (.missingFields, 400, db)
  else if ¬ urlValid then (.invalidUrl, 400, db)
  else if ¬ projectInsertOk then (.projectInsertFailed, 500, db)
  else
    let db1 : ProjectsDb := { db with projects := db.projects ++ [newId] }
    if ¬ configInsertOk then
      (.configInsertFailed, 500,
        { db1 with projects := db1.projects.filter (fun p => p ≠ newId) })
    else
      (.created, 201, { db1 with configs := db1.configs ++ [newId] })

theorem filter_ne_of_not_mem (l : List String) (x : String) (h : x ∉ l) :
    l.filter (fun p => p ≠ x) = l := by
  rw [List.filter_eq_self]
  intro p hp
  simp only [decide_eq_true_eq]
  intro hc
  exact h (hc ▸ hp)

/-- C10: if the `project_configs` insert fails after the `projects`
insert succeeded, the handler deletes the just-created project row and
answers 500; consequently, whenever every project row had a config row
before the request, the same holds after it, whatever the outcome. -/
theorem postProjects_config_failure_atomic
    (authOk hasNameAndDomain urlValid projectInsertOk configInsertOk : Bool)
    (newId : String) (db : ProjectsDb)
    (hinv : ∀ p, p ∈ db.projects ↔ p ∈ db.configs)
    (hfresh : newId ∉ db.projects) :
    ((postProjects authOk hasNameAndDomain urlValid projectInsertOk
        configInsertOk newId db).1 = .configInsertFailed →
      (postProjects authOk hasNameAndDomain urlValid projectInsertOk
        configInsertOk newId db).2.1 = 500 ∧
      newId ∉ (postProjects authOk hasNameAndDomain urlValid
        projectInsertOk configInsertOk newId db).2.2.projects) ∧
    ((postProjects authOk hasNameAndDomain urlValid projectInsertOk
        configInsertOk newId db).1 = .created →
      newId ∈ (postProjects authOk hasNameAndDomain urlValid
        projectInsertOk configInsertOk newId db).2.2.projects ∧
      newId ∈ (postProjects authOk hasNameAndDomain urlValid
        projectInsertOk configInsertOk newId db).2.2.configs) ∧
    (∀ p, p ∈ (postProjects authOk hasNameAndDomain urlValid
        projectInsertOk configInsertOk newId db).2.2.projects ↔
      p ∈ (postProjects authOk hasNameAndDomain urlValid projectInsertOk
        configInsertOk newId db).2.2.configs) := by
  have hnotc : newId ∉ db.configs := fun hc => hfresh ((hinv newId).mpr hc)
  have hclean : (db.projects ++ [newId]).filter (fun p => p ≠ newId) =
      db.projects := by
    rw [List.filter_append, filter_ne_of_not_mem db.projects newId hfresh]
    simp
  cases authOk with
  | false =>
    refine ⟨fun h => ?_, fun h => ?_, fun p => ?_⟩
    · simp [postProjects] at h
    · simp [postProjects] at h
    · simpa [postProjects] using hinv p
  | true =>
    cases hasNameAndDomain with
    | false =>
      refine ⟨fun h => ?_, fun h => ?_, fun p => ?_⟩
      · simp [postProjects] at h
      · simp [postProjects] at h
      · simpa [postProjects] using hinv p
    | true =>
      cases urlValid with
      | false =>
        refine ⟨fun h => ?_, fun h => ?_, fun p => ?_⟩
        · simp [postProjects] at h
        · simp [postProjects] at h
        · simpa [postProjects] using hinv p
      | true =>
        cases projectInsertOk with
        | false =>
          refine ⟨fun h => ?_, fun h => ?_, fun p => ?_⟩
          · simp [postProjects] at h
          · simp [postProjects] at h
          · simpa [postProjects] using hinv p
        | true =>
          cases configInsertOk with
          | false =>
            have hredp : (postProjects true true true true false newId
                db).2.2.projects =
                (db.projects ++ [newId]).filter (fun p => p ≠ newId) := rfl
            have hredc : (postProjects true true true true false newId
                db).2.2.configs = db.configs := rfl
            refine ⟨fun _ => ⟨rfl, ?_⟩, fun h => ?_, fun p => ?_⟩
            · rw [hredp, hclean]
              exact hfresh
            · simp [postProjects] at h
            · rw [hredp, hredc, hclean]
              exact hinv p
          | true =>
            have hredp : (postProjects true true true true true newId
                db).2.2.projects = db.projects ++ [newId] := rfl
            have hredc : (postProjects true true true true true newId
                db).2.2.configs = db.configs ++ [newId] := rfl
            refine ⟨fun h => ?_, fun _ => ⟨?_, ?_⟩, fun p => ?_⟩
            · simp [postProjects] at h
            · rw [hredp]
              simp
            · rw [hredc]
              simp
            · rw [hredp, hredc]
              simp only [List.mem_append, List.mem_singleton]
              constructor
              · rintro (hp | hp)
                · exact Or.inl ((hinv p).mp hp)
                · exact Or.inr hp
              · rintro (hp | hp)
                · exact Or.inl ((hinv p).mpr hp)
                · exact Or.inr hp

/-- Witness for C10: a config-insert failure on a one-project database
rolls the new project row back. -/
theorem postProjects_config_failure_atomic_witness :
    (postProjects true true true true false "p1"
      { projects := ["p0"], configs := ["p0"] }).2.1 = 500 ∧
    "p1" ∉ (postProjects true true true true false "p1"
      { projects := ["p0"], configs := ["p0"] }).2.2.projects :=
  (postProjects_config_failure_atomic true true true true false "p1"
    { projects := ["p0"], configs := ["p0"] }
    (fun _ => Iff.rfl) (by decide)).1 rfl

end LlmsTxt
